import Mathlib

/-!
Verification development for the `rate.py` AI-rating pipeline
(Notion record store + OpenAI rating engine).

The Python source is shallowly embedded: pure computations (string
transforms, JSON-to-property mapping, criteria text extraction) become
Lean functions; every external call (Notion block listing, database
query, page update, OpenAI chat completion, `json.loads`) is modelled by
an environment of oracles, and each embedded function returns the list
of external calls it issued (its trace) together with its result, with
uncaught Python exceptions modelled by `Except`.
-/

/-- Python exception kinds relevant to the control flow of `rate.py`:
the driver loop catches exactly `(KeyError, IndexError)`; transport
failures of the API clients surface as other exceptions. -/
inductive PyErr where
  | keyError
  | indexError
  | apiError
  | attrError
deriving DecidableEq, Repr

/-- JSON values as produced by Python `json.loads`: `None`, `bool`,
`int`, `float`, `str`, arrays and objects (objects keep key order, as
Python dicts do). The `jfloat` payload is an opaque tag: no claim
computes with float arithmetic. -/
inductive JVal where
  | jnull : JVal
  | jbool : Bool → JVal
  | jint : Int → JVal
  | jfloat : Int → JVal
  | jstr : String → JVal
  | jarr : List JVal → JVal
  | jobj : List (String × JVal) → JVal

/-- Python truthiness (`if rating:`) on JSON values: `None`, `False`,
zero, empty string, empty list and empty dict are falsy. -/
def pyTruthy : JVal → Bool
  | .jnull => false
  | .jbool b => b
  | .jint n => n != 0
  | .jfloat n => n != 0
  | .jstr s => s != ""
  | .jarr l => !l.isEmpty
  | .jobj l => !l.isEmpty

/-- Python `isinstance(value, (int, float))` on a JSON-decoded value.
In Python, `bool` is a subclass of `int`, so booleans pass this check. -/
def isPyNumeric : JVal → Bool
  | .jbool _ => true
  | .jint _ => true
  | .jfloat _ => true
  | _ => false

/-- Python whitespace characters stripped by `str.strip()` (ASCII). -/
def isPySpace (c : Char) : Bool :=
  c == ' ' || c == '\t' || c == '\n' || c == '\r' ||
    c == Char.ofNat 11 || c == Char.ofNat 12

/-- `not s.strip()` in Python: true iff `s` is empty or whitespace-only. -/
def pyStripEmpty (s : String) : Bool :=
  s.toList.all isPySpace

/-- `suffix`-test on strings, list-level (Python `str.endswith`). -/
def strEndsWith (s suf : String) : Bool :=
  suf.toList.isSuffixOf s.toList

/-- Python `key.replace('_', ' ')` at the character-list level. -/
def pyReplUnd (cs : List Char) : List Char :=
  cs.map (fun c => if c = '_' then ' ' else c)

/-- Python `str.title()` at the character-list level: an alphabetic
character is uppercased when the previous character was not alphabetic
and lowercased otherwise (ASCII model; the state is whether the
previous character was cased). -/
def pyTitleAux : Bool → List Char → List Char
  | _, [] => []
  | prevCased, c :: cs =>
    if c.isAlpha then
      (if prevCased then c.toLower else c.toUpper) :: pyTitleAux true cs
    else
      c :: pyTitleAux false cs

/-- `key.replace('_', ' ').title()`: the Notion property name derived
from a snake_case score key (line 107 of `rate.py`). -/
def notionName (key : String) : String :=
  ⟨pyTitleAux false (pyReplUnd key.toList)⟩

/-- A Notion property value as written by `rate.py`:
`{"rich_text": [{"text": {"content": v}}]}`, `{"select": {"name": n}}`,
or `{"number": v}`. -/
inductive PropVal where
  | richText : JVal → PropVal
  | selectName : String → PropVal
  | number : JVal → PropVal

/-- First-match lookup in an association list (Python dict read). -/
def alookup {α : Type} : List (String × α) → String → Option α
  | [], _ => none
  | (k, v) :: rest, key => if key = k then some v else alookup rest key

/-- Python dict write `d[k] = v`: overwrite in place if the key exists,
else append. -/
def dictInsert {α : Type} : List (String × α) → String → α → List (String × α)
  | [], key, v => [(key, v)]
  | (k, w) :: rest, key, v =>
    if key = k then (k, v) :: rest else (k, w) :: dictInsert rest key v

/-- Does one rating key contribute a score column? (`rate.py` line 105:
`key.endswith("_score") and isinstance(value, (int, float))`). -/
def scoreEntry (k : String) (v : JVal) : Bool :=
  strEndsWith k "_score" && isPyNumeric v

/-- The score-column fold of `update_notion_page` (lines 104-108):
dynamically add one numeric property per numeric `_score` key. -/
def addScores (init : List (String × PropVal)) (items : List (String × JVal)) :
    List (String × PropVal) :=
  items.foldl
    (fun acc kv =>
      if scoreEntry kv.1 kv.2 then
        dictInsert acc (notionName kv.1) (.number kv.2)
      else acc)
    init

/-- `properties_to_update` built by `update_notion_page`
(lines 98-108): the fixed `Evaluation Notes` / `Status = Rated` fields,
then one numeric column per numeric `_score` key. -/
def buildProperties (rating : List (String × JVal)) : List (String × PropVal) :=
  addScores
    [("Evaluation Notes", .richText ((alookup rating "evaluation_notes").getD (.jstr "N/A"))),
     ("Status", .selectName "Rated")]
    rating

/-- The fallback properties `{"Status": {"select": {"name": "Error"}}}`
written on any error path (lines 116, 144, 148). -/
def errorProps : List (String × PropVal) :=
  [("Status", .selectName "Error")]

/-- A text run in a Notion rich-text array: we model only the
`plain_text` field that `rate.py` reads. -/
structure TextRun where
  plain_text : String

/-- A content block of the standards page. `btype` is `block['type']`;
`body = none` models `block.get(block['type'], {})` finding nothing
(so the `{}` default carries no rich-text); `rich_text = none` models a
type-keyed sub-object without a `'rich_text'` key. -/
structure BlockBody where
  rich_text : Option (List TextRun)

structure Block where
  btype : String
  body : Option BlockBody

/-- The plain texts a block contributes in `get_rating_criteria`
(lines 33-38): skipped unless its type-keyed sub-object has a
`rich_text` collection, else all runs in order. -/
def blockTexts (b : Block) : List String :=
  ((b.body.bind BlockBody.rich_text).getD []).map TextRun.plain_text

/-- The accumulator loop of `get_rating_criteria` (lines 32-38),
appending each run of each textual block to `criteria_text`. -/
def criteriaLoop (blocks : List Block) : List String :=
  blocks.foldl
    (fun acc b =>
      match b.body with
      | none => acc
      | some body =>
        match body.rich_text with
        | none => acc
        | some runs => runs.foldl (fun a t => a ++ [t.plain_text]) acc)
    []

/-- The pure part of `get_rating_criteria` once the block list is in
hand (lines 40-46): newline-join, then `None` if whitespace-only. -/
def criteriaFromBlocks (blocks : List Block) : Option String :=
  let full := String.intercalate "\n" (criteriaLoop blocks)
  if pyStripEmpty full then none else some full

/-- The filter object passed to `notion.databases.query` (line 58). -/
structure NotionFilter where
  property : String
  selectEquals : String
deriving DecidableEq

/-- `{"property": "Status", "select": {"equals": "To be Rated"}}`. -/
def statusFilter : NotionFilter :=
  ⟨"Status", "To be Rated"⟩

/-- A property object of a response page: a map from sub-keys
(`"title"`, `"rich_text"`) to arrays of text runs, matching the shape
`page["properties"][name][subkey][0]["plain_text"]` read in `main`. -/
def PropField : Type := List (String × List TextRun)

/-- A page (row) of the responses database, as read by `main`. -/
structure Page where
  id : String
  properties : List (String × PropField)

/-- `page["properties"][name][subkey][0]["plain_text"]` (lines
134-135): a missing key raises `KeyError`, an empty array raises
`IndexError`. -/
def extractText (page : Page) (name subkey : String) : Except PyErr String :=
  match alookup page.properties name with
  | none => .error .keyError
  | some field =>
    match alookup field subkey with
    | none => .error .keyError
    | some elems =>
      match elems with
      | [] => .error .indexError
      | e :: _ => .ok e.plain_text

/-- One external call issued by the program. -/
inductive ApiCall where
  | listBlocks
  | queryDB : NotionFilter → ApiCall
  | chatCompletion : String → String → String → ApiCall
  | updatePage : String → List (String × PropVal) → ApiCall

/-- The environment of external services: each oracle either returns a
value or raises. `chat` takes the criteria, user prompt and chatbot
response embedded into the master prompt and yields the message
content; `parse` models `json.loads` on that content. -/
structure Env where
  listBlocks : Except PyErr (List Block)
  queryDB : NotionFilter → Except PyErr (List Page)
  chat : String → String → String → Except PyErr String
  parse : String → Except PyErr JVal
  updatePage : String → List (String × PropVal) → Except PyErr Unit

/-- `get_rating_criteria` (lines 25-50): list the standards page's
blocks, join all plain texts; any exception, or whitespace-only text,
yields `None`. -/
def get_rating_criteria (env : Env) : List ApiCall × Option String :=
  match env.listBlocks with
  | .error _ => ([.listBlocks], none)
  | .ok blocks => ([.listBlocks], criteriaFromBlocks blocks)

/-- `get_unrated_responses` (lines 52-64): one filtered query; the
result list is returned as is, and any exception yields `[]`. -/
def get_unrated_responses (env : Env) : List ApiCall × List Page :=
  match env.queryDB statusFilter with
  | .error _ => ([.queryDB statusFilter], [])
  | .ok results => ([.queryDB statusFilter], results)

/-- `get_rating_from_ai` (lines 66-94): one chat-completion call whose
content is parsed with `json.loads`; service failure or parse failure
is caught and yields `None`. -/
def get_rating_from_ai (env : Env) (criteria user_prompt chatbot_response : String) :
    List ApiCall × Option JVal :=
  match env.chat criteria user_prompt chatbot_response with
  | .error _ => ([.chatCompletion criteria user_prompt chatbot_response], none)
  | .ok content =>
    match env.parse content with
    | .error _ => ([.chatCompletion criteria user_prompt chatbot_response], none)
    | .ok j => ([.chatCompletion criteria user_prompt chatbot_response], some j)

/-- `update_notion_page` (lines 96-116): issue the primary update; on
any exception, fall back to a `Status = Error` update, which is itself
unguarded, so its exception escapes the function. -/
def update_notion_page (env : Env) (page_id : String) (rating : List (String × JVal)) :
    List ApiCall × Except PyErr Unit :=
  let props := buildProperties rating
  match env.updatePage page_id props with
  | .ok _ => ([.updatePage page_id props], .ok ())
  | .error _ =>
    match env.updatePage page_id errorProps with
    | .ok _ => ([.updatePage page_id props, .updatePage page_id errorProps], .ok ())
    | .error e2 => ([.updatePage page_id props, .updatePage page_id errorProps], .error e2)

/-- The body of the per-record `try:` block in `main` (lines 133-144):
extract `Prompt` and `AI Response`, invoke the rating engine, then
either write the rating or mark the page `Error`. An exception result
is one escaping the `try:` body. -/
def pageBody (env : Env) (criteria : String) (page : Page) :
    List ApiCall × Except PyErr Unit :=
  match extractText page "Prompt" "title" with
  | .error e => ([], .error e)
  | .ok user_prompt =>
    match extractText page "AI Response" "rich_text" with
    | .error e => ([], .error e)
    | .ok ai_response =>
      let engine := get_rating_from_ai env criteria user_prompt ai_response
      match engine.2 with
      | some r =>
        if pyTruthy r then
          match r with
          | .jobj fields =>
            let writer := update_notion_page env page.id fields
            (engine.1 ++ writer.1, writer.2)
          | _ => (engine.1, .error .attrError)
        else
          match env.updatePage page.id errorProps with
          | .ok _ => (engine.1 ++ [.updatePage page.id errorProps], .ok ())
          | .error e => (engine.1 ++ [.updatePage page.id errorProps], .error e)
      | none =>
        match env.updatePage page.id errorProps with
        | .ok _ => (engine.1 ++ [.updatePage page.id errorProps], .ok ())
        | .error e => (engine.1 ++ [.updatePage page.id errorProps], .error e)

/-- The `except (KeyError, IndexError)` handler of `main` (lines
146-148): those two exception kinds trigger an unguarded
`Status = Error` update; every other exception escapes the loop. -/
def catchKeyIndex (env : Env) (page_id : String)
    (res : List ApiCall × Except PyErr Unit) : List ApiCall × Except PyErr Unit :=
  match res.2 with
  | .ok _ => res
  | .error e =>
    match e with
    | .keyError =>
      match env.updatePage page_id errorProps with
      | .ok _ => (res.1 ++ [.updatePage page_id errorProps], .ok ())
      | .error e2 => (res.1 ++ [.updatePage page_id errorProps], .error e2)
    | .indexError =>
      match env.updatePage page_id errorProps with
      | .ok _ => (res.1 ++ [.updatePage page_id errorProps], .ok ())
      | .error e2 => (res.1 ++ [.updatePage page_id errorProps], .error e2)
    | _ => res

/-- One iteration of the `for page in responses_to_rate:` loop. -/
def processPage (env : Env) (criteria : String) (page : Page) :
    List ApiCall × Except PyErr Unit :=
  catchKeyIndex env page.id (pageBody env criteria page)

/-- The record loop of `main` (lines 131-148): pages are processed in
order; an exception escaping one iteration aborts the run. -/
def runPages (env : Env) (criteria : String) : List Page → List ApiCall × Except PyErr Unit
  | [] => ([], .ok ())
  | p :: ps =>
    match processPage env criteria p with
    | (acts, .ok _) =>
      let rest := runPages env criteria ps
      (acts ++ rest.1, rest.2)
    | (acts, .error e) => (acts, .error e)

/-- `main` (lines 119-150): load criteria, abort if falsy; fetch
unrated pages, abort if empty; otherwise process each page. -/
def pipelineMain (env : Env) : List ApiCall × Except PyErr Unit :=
  let loader := get_rating_criteria env
  let falsyCriteria :=
    match loader.2 with
    | none => true
    | some s => s = ""
  if falsyCriteria then (loader.1, .ok ())
  else
    match loader.2 with
    | none => (loader.1, .ok ())
    | some criteria =>
      let fetcher := get_unrated_responses env
      match fetcher.2 with
      | [] => (loader.1 ++ fetcher.1, .ok ())
      | p :: ps =>
        let looped := runPages env criteria (p :: ps)
        (loader.1 ++ fetcher.1 ++ looped.1, looped.2)

/-! ### Association-list lemmas -/

theorem alookup_mem_keys {α : Type} (l : List (String × α)) (key : String) :
    (∃ v, alookup l key = some v) ↔ key ∈ l.map Prod.fst := by
  induction l with
  | nil => simp [alookup]
  | cons hd tl ih =>
    obtain ⟨k, v⟩ := hd
    by_cases h : key = k
    · subst h
      simp [alookup]
    · simp [alookup, h, ih]

theorem alookup_dictInsert {α : Type} (l : List (String × α)) (k : String) (v : α)
    (key : String) :
    alookup (dictInsert l k v) key = if key = k then some v else alookup l key := by
  induction l with
  | nil => simp [alookup, dictInsert]
  | cons hd tl ih =>
    obtain ⟨k0, w⟩ := hd
    by_cases hk : k = k0
    · subst hk
      by_cases h : key = k
      · subst h
        simp [alookup, dictInsert]
      · simp [alookup, dictInsert, h]
    · by_cases h : key = k0
      · subst h
        have hne : key ≠ k := fun hc => hk (hc ▸ rfl)
        simp [alookup, dictInsert, hk, hne]
      · simp [alookup, dictInsert, hk, h, ih]

theorem keys_dictInsert {α : Type} (l : List (String × α)) (k : String) (v : α) :
    (dictInsert l k v).map Prod.fst =
      if k ∈ l.map Prod.fst then l.map Prod.fst else l.map Prod.fst ++ [k] := by
  induction l with
  | nil => simp [dictInsert]
  | cons hd tl ih =>
    obtain ⟨k0, w⟩ := hd
    by_cases hk : k = k0
    · subst hk
      simp [dictInsert]
    · have hne : k0 ≠ k := fun hc => hk (hc ▸ rfl)
      by_cases hm : k ∈ tl.map Prod.fst
      · simp [dictInsert, hk, hm, ih, hne.symm]
      · simp [dictInsert, hk, hm, ih, hne.symm]

theorem mem_keys_dictInsert {α : Type} (l : List (String × α)) (k : String) (v : α)
    (key : String) :
    key ∈ (dictInsert l k v).map Prod.fst ↔ key = k ∨ key ∈ l.map Prod.fst := by
  rw [keys_dictInsert]
  by_cases hm : k ∈ l.map Prod.fst
  · rw [if_pos hm]
    constructor
    · exact Or.inr
    · rintro (rfl | h)
      · exact hm
      · exact h
  · rw [if_neg hm]
    rw [List.mem_append, List.mem_singleton]
    tauto

theorem nodup_keys_dictInsert {α : Type} (l : List (String × α)) (k : String) (v : α)
    (h : (l.map Prod.fst).Nodup) : ((dictInsert l k v).map Prod.fst).Nodup := by
  rw [keys_dictInsert]
  by_cases hm : k ∈ l.map Prod.fst
  · rw [if_pos hm]
    exact h
  · rw [if_neg hm]
    rw [List.nodup_append]
    refine ⟨h, List.nodup_singleton _, ?_⟩
    intro a ha hb
    rw [List.mem_singleton] at hb
    subst hb
    exact hm ha

/-! ### String-transform lemmas: a `_score` key always maps to a
property name ending in `" Score"` -/

theorem pyTitleAux_append (st : Bool) (xs ys : List Char) :
    pyTitleAux st (xs ++ ys) =
      pyTitleAux st xs ++ pyTitleAux (xs.foldl (fun _ c => c.isAlpha) st) ys := by
  induction xs generalizing st with
  | nil => simp [pyTitleAux]
  | cons c cs ih =>
    by_cases h : c.isAlpha
    · simp [pyTitleAux, h, ih]
    · simp [pyTitleAux, h, ih]

theorem pyTitleAux_space (b : Bool) (cs : List Char) :
    pyTitleAux b (' ' :: cs) = ' ' :: pyTitleAux false cs := by
  simp [pyTitleAux]

theorem pyReplUnd_append (xs ys : List Char) :
    pyReplUnd (xs ++ ys) = pyReplUnd xs ++ pyReplUnd ys := by
  simp [pyReplUnd]

theorem notionName_toList (k : String) (h : strEndsWith k "_score" = true) :
    ∃ pre : List Char,
      (notionName k).toList = pyTitleAux false (pyReplUnd pre) ++ " Score".toList := by
  have hsuf : "_score".toList <:+ k.toList := by
    simpa [strEndsWith, List.isSuffixOf_iff_suffix] using h
  obtain ⟨pre, hpre⟩ := hsuf
  refine ⟨pre, ?_⟩
  have hrepl : pyReplUnd k.toList = pyReplUnd pre ++ (' ' :: "score".toList) := by
    rw [← hpre, pyReplUnd_append]
    rfl
  have htail : pyTitleAux false (' ' :: "score".toList) = " Score".toList := by decide
  calc (notionName k).toList
      = pyTitleAux false (pyReplUnd k.toList) := rfl
    _ = pyTitleAux false (pyReplUnd pre ++ (' ' :: "score".toList)) := by rw [hrepl]
    _ = pyTitleAux false (pyReplUnd pre) ++
          pyTitleAux ((pyReplUnd pre).foldl (fun _ c => c.isAlpha) false)
            (' ' :: "score".toList) := pyTitleAux_append _ _ _
    _ = pyTitleAux false (pyReplUnd pre) ++ (' ' :: pyTitleAux false "score".toList) := by
          rw [pyTitleAux_space]
    _ = pyTitleAux false (pyReplUnd pre) ++ " Score".toList := by rw [← htail]; rfl

theorem notionName_endsWith_score (k : String) (h : strEndsWith k "_score" = true) :
    strEndsWith (notionName k) " Score" = true := by
  obtain ⟨pre, hlist⟩ := notionName_toList k h
  have hsuf : " Score".toList <:+ (notionName k).toList := by
    rw [hlist]
    exact List.suffix_append _ _
  simpa [strEndsWith, List.isSuffixOf_iff_suffix] using hsuf

theorem notionName_ne_fixed (k : String) (h : strEndsWith k "_score" = true) :
    notionName k ≠ "Evaluation Notes" ∧ notionName k ≠ "Status" := by
  have hs := notionName_endsWith_score k h
  constructor
  · intro hc
    rw [hc] at hs
    exact absurd hs (by decide)
  · intro hc
    rw [hc] at hs
    exact absurd hs (by decide)

/-! ### Lemmas on the score-column fold of `update_notion_page` -/

theorem scoreEntry_split (k : String) (v : JVal) (h : scoreEntry k v = true) :
    strEndsWith k "_score" = true ∧ isPyNumeric v = true := by
  simpa [scoreEntry, Bool.and_eq_true] using h

theorem addScores_cons (init : List (String × PropVal)) (kv : String × JVal)
    (rest : List (String × JVal)) :
    addScores init (kv :: rest) =
      addScores
        (if scoreEntry kv.1 kv.2 then dictInsert init (notionName kv.1) (.number kv.2)
         else init)
        rest := by
  by_cases h : scoreEntry kv.1 kv.2
  · simp [addScores, h]
  · simp [addScores, h]

theorem addScores_lookup_stable (items : List (String × JVal))
    (init : List (String × PropVal)) (name : String)
    (hname : strEndsWith name " Score" = false) :
    alookup (addScores init items) name = alookup init name := by
  induction items generalizing init with
  | nil => simp [addScores]
  | cons kv rest ih =>
    rw [addScores_cons]
    by_cases h : scoreEntry kv.1 kv.2
    · rw [if_pos h, ih]
      rw [alookup_dictInsert]
      have hne : name ≠ notionName kv.1 := by
        intro hc
        have := notionName_endsWith_score kv.1 (scoreEntry_split kv.1 kv.2 h).1
        rw [← hc] at this
        rw [this] at hname
        exact Bool.noConfusion hname
      rw [if_neg hne]
    · rw [if_neg h, ih]

theorem addScores_keys_closure (items : List (String × JVal))
    (init : List (String × PropVal)) (name : String)
    (hmem : name ∈ (addScores init items).map Prod.fst) :
    name ∈ init.map Prod.fst ∨
      ∃ k v, (k, v) ∈ items ∧ scoreEntry k v = true ∧ name = notionName k := by
  induction items generalizing init with
  | nil => exact Or.inl (by simpa [addScores] using hmem)
  | cons kv rest ih =>
    rw [addScores_cons] at hmem
    rcases ih _ hmem with hinit | ⟨k, v, hkv, hs, hn⟩
    · by_cases h : scoreEntry kv.1 kv.2
      · rw [if_pos h] at hinit
        rcases (mem_keys_dictInsert _ _ _ _).1 hinit with heq | hold
        · exact Or.inr ⟨kv.1, kv.2, List.mem_cons_self _ _, h, heq⟩
        · exact Or.inl hold
      · rw [if_neg h] at hinit
        exact Or.inl hinit
    · exact Or.inr ⟨k, v, List.mem_cons_of_mem _ hkv, hs, hn⟩

theorem addScores_keys_mono (items : List (String × JVal))
    (init : List (String × PropVal)) (name : String)
    (hmem : name ∈ init.map Prod.fst) :
    name ∈ (addScores init items).map Prod.fst := by
  induction items generalizing init with
  | nil => simpa [addScores] using hmem
  | cons kv rest ih =>
    rw [addScores_cons]
    by_cases h : scoreEntry kv.1 kv.2
    · rw [if_pos h]
      exact ih _ ((mem_keys_dictInsert _ _ _ _).2 (Or.inr hmem))
    · rw [if_neg h]
      exact ih _ hmem

theorem addScores_mem_keys (items : List (String × JVal))
    (init : List (String × PropVal)) (k : String) (v : JVal)
    (hkv : (k, v) ∈ items) (hs : scoreEntry k v = true) :
    notionName k ∈ (addScores init items).map Prod.fst := by
  induction items generalizing init with
  | nil => cases hkv
  | cons kv rest ih =>
    rw [addScores_cons]
    rcases List.mem_cons.1 hkv with heq | hrest
    · rw [← heq, if_pos hs]
      exact addScores_keys_mono rest _ _ ((mem_keys_dictInsert _ _ _ _).2 (Or.inl rfl))
    · by_cases h : scoreEntry kv.1 kv.2
      · rw [if_pos h]
        exact ih _ hrest
      · rw [if_neg h]
        exact ih _ hrest

theorem addScores_nodup_keys (items : List (String × JVal))
    (init : List (String × PropVal)) (h : (init.map Prod.fst).Nodup) :
    ((addScores init items).map Prod.fst).Nodup := by
  induction items generalizing init with
  | nil => simpa [addScores] using h
  | cons kv rest ih =>
    rw [addScores_cons]
    by_cases hs : scoreEntry kv.1 kv.2
    · rw [if_pos hs]
      exact ih _ (nodup_keys_dictInsert _ _ _ h)
    · rw [if_neg hs]
      exact ih _ h

theorem addScores_number_valued (items : List (String × JVal))
    (init : List (String × PropVal))
    (h : ∀ name w, strEndsWith name " Score" = true → alookup init name = some w →
      ∃ u, w = PropVal.number u) :
    ∀ name w, strEndsWith name " Score" = true →
      alookup (addScores init items) name = some w → ∃ u, w = PropVal.number u := by
  induction items generalizing init with
  | nil => simpa [addScores] using h
  | cons kv rest ih =>
    rw [addScores_cons]
    by_cases hs : scoreEntry kv.1 kv.2
    · rw [if_pos hs]
      refine ih _ ?_
      intro name w hend hlook
      rw [alookup_dictInsert] at hlook
      by_cases hn : name = notionName kv.1
      · rw [if_pos hn] at hlook
        exact ⟨kv.2, (Option.some_injective _ hlook).symm⟩
      · rw [if_neg hn] at hlook
        exact h name w hend hlook
    · rw [if_neg hs]
      exact ih _ h

theorem addScores_lookup_notin (items : List (String × JVal))
    (init : List (String × PropVal)) (n : String)
    (h : ∀ k v, (k, v) ∈ items → scoreEntry k v = true → notionName k ≠ n) :
    alookup (addScores init items) n = alookup init n := by
  induction items generalizing init with
  | nil => simp [addScores]
  | cons kv rest ih =>
    rw [addScores_cons]
    have hrest : ∀ k v, (k, v) ∈ rest → scoreEntry k v = true → notionName k ≠ n :=
      fun k v hm hs => h k v (List.mem_cons_of_mem _ hm) hs
    by_cases hs : scoreEntry kv.1 kv.2
    · rw [if_pos hs, ih _ hrest, alookup_dictInsert]
      have hne : n ≠ notionName kv.1 := by
        intro hc
        exact h kv.1 kv.2 (List.mem_cons_self _ _) hs hc.symm
      rw [if_neg hne]
    · rw [if_neg hs]
      exact ih _ hrest

theorem addScores_lookup_unique (items : List (String × JVal))
    (init : List (String × PropVal)) (k : String) (v : JVal)
    (hkv : (k, v) ∈ items) (hs : scoreEntry k v = true)
    (huniq : ∀ k2 v2, (k2, v2) ∈ items → scoreEntry k2 v2 = true →
      notionName k2 = notionName k → (k2, v2) = (k, v)) :
    alookup (addScores init items) (notionName k) = some (.number v) := by
  induction items generalizing init with
  | nil => cases hkv
  | cons kv0 rest ih =>
    by_cases hmem : (k, v) ∈ rest
    · rw [addScores_cons]
      exact ih _ hmem
        (fun k2 v2 hm h1 h2 => huniq k2 v2 (List.mem_cons_of_mem _ hm) h1 h2)
    · have heq : (k, v) = kv0 := (List.mem_cons.1 hkv).resolve_right hmem
      subst heq
      rw [addScores_cons, if_pos hs]
      have hnone : ∀ k2 v2, (k2, v2) ∈ rest → scoreEntry k2 v2 = true →
          notionName k2 ≠ notionName k := by
        intro k2 v2 hm h1 h2
        have := huniq k2 v2 (List.mem_cons_of_mem _ hm) h1 h2
        rw [this] at hm
        exact hmem hm
      rw [addScores_lookup_notin rest _ _ hnone, alookup_dictInsert, if_pos rfl]

/-! ### `buildProperties`: the two fixed fields -/

theorem buildProperties_init_number_valued (rating : List (String × JVal)) :
    ∀ name w, strEndsWith name " Score" = true →
      alookup
        [("Evaluation Notes",
            PropVal.richText ((alookup rating "evaluation_notes").getD (.jstr "N/A"))),
         ("Status", PropVal.selectName "Rated")] name = some w →
      ∃ u, w = PropVal.number u := by
  intro name w hend hlook
  by_cases h1 : name = "Evaluation Notes"
  · rw [h1] at hend
    exact absurd hend (by decide)
  · by_cases h2 : name = "Status"
    · rw [h2] at hend
      exact absurd hend (by decide)
    · simp [alookup, h1, h2] at hlook

/-- The concrete rating object of the specification's worked example. -/
def exampleRating : List (String × JVal) :=
  [("clarity_score", .jint 4), ("accuracy_score", .jint 5), ("evaluation_notes", .jstr "ok")]

/-- The update that `update_notion_page` builds for `exampleRating`. -/
def exampleProps : List (String × PropVal) :=
  [("Evaluation Notes", .richText (.jstr "ok")), ("Status", .selectName "Rated"),
   ("Clarity Score", .number (.jint 4)), ("Accuracy Score", .number (.jint 5))]

/-- C1: for every rating object, `update_notion_page` builds a single
update that always sets `Evaluation Notes` (from `evaluation_notes`,
defaulting to the placeholder `"N/A"`) and `Status = Rated`; every key
ending in `_score` with a numeric value yields exactly one numeric
destination field named by the underscore-to-space title-cased key;
every other key contributes no column; the primary update issued by the
writer carries exactly these properties; and on the spec's worked
example the update is `{Evaluation Notes: ok, Status: Rated,
Clarity Score: 4, Accuracy Score: 5}`. -/
theorem c1_update_notion_page_mapping
    (rating : List (String × JVal)) (k : String) (v : JVal)
    (hmem : (k, v) ∈ rating) (hscore : scoreEntry k v = true) :
    alookup (buildProperties rating) "Evaluation Notes" =
        some (.richText ((alookup rating "evaluation_notes").getD (.jstr "N/A"))) ∧
      alookup (buildProperties rating) "Status" = some (.selectName "Rated") ∧
      ((buildProperties rating).map Prod.fst).count (notionName k) = 1 ∧
      (∃ u, alookup (buildProperties rating) (notionName k) = some (.number u)) ∧
      (∀ name, name ∈ (buildProperties rating).map Prod.fst →
        name = "Evaluation Notes" ∨ name = "Status" ∨
          ∃ k2 v2, (k2, v2) ∈ rating ∧ scoreEntry k2 v2 = true ∧ name = notionName k2) ∧
      buildProperties exampleRating = exampleProps ∧
      (∀ env page_id, (update_notion_page env page_id rating).1.head? =
        some (.updatePage page_id (buildProperties rating))) := by
  have hends := (scoreEntry_split k v hscore).1
  have hfix := notionName_ne_fixed k hends
  have hnodup : ((buildProperties rating).map Prod.fst).Nodup := by
    apply addScores_nodup_keys
    simp
  have hmemkey : notionName k ∈ (buildProperties rating).map Prod.fst :=
    addScores_mem_keys rating _ k v hmem hscore
  refine ⟨?_, ?_, ?_, ?_, ?_, rfl, ?_⟩
  · have := addScores_lookup_stable rating
      [("Evaluation Notes",
          PropVal.richText ((alookup rating "evaluation_notes").getD (.jstr "N/A"))),
       ("Status", PropVal.selectName "Rated")]
      "Evaluation Notes" (by decide)
    rw [buildProperties, this]
    rfl
  · have := addScores_lookup_stable rating
      [("Evaluation Notes",
          PropVal.richText ((alookup rating "evaluation_notes").getD (.jstr "N/A"))),
       ("Status", PropVal.selectName "Rated")]
      "Status" (by decide)
    rw [buildProperties, this]
    rfl
  · exact List.count_eq_one_of_mem hnodup hmemkey
  · obtain ⟨w, hw⟩ := (alookup_mem_keys (buildProperties rating) (notionName k)).2 hmemkey
    obtain ⟨u, hu⟩ :=
      addScores_number_valued rating _ (buildProperties_init_number_valued rating)
        (notionName k) w (notionName_endsWith_score k hends) hw
    exact ⟨u, by rw [hw, hu]⟩
  · intro name hname
    rcases addScores_keys_closure rating _ name hname with hinit | ⟨k2, v2, h1, h2, h3⟩
    · simp at hinit
      tauto
    · exact Or.inr (Or.inr ⟨k2, v2, h1, h2, h3⟩)
  · intro env page_id
    unfold update_notion_page
    cases h : env.updatePage page_id (buildProperties rating) with
    | ok u => simp [h]
    | error e =>
      cases h2 : env.updatePage page_id errorProps with
      | ok u => simp [h, h2]
      | error e2 => simp [h, h2]

/-- C1 witness: the theorem instantiated on the worked example, at key
`clarity_score` with value `4`. -/
theorem c1_witness :
    ("clarity_score", JVal.jint 4) ∈ exampleRating ∧
      scoreEntry "clarity_score" (JVal.jint 4) = true ∧
      (alookup (buildProperties exampleRating) "Evaluation Notes" =
          some (.richText ((alookup exampleRating "evaluation_notes").getD (.jstr "N/A"))) ∧
        alookup (buildProperties exampleRating) "Status" = some (.selectName "Rated") ∧
        ((buildProperties exampleRating).map Prod.fst).count (notionName "clarity_score") = 1 ∧
        (∃ u, alookup (buildProperties exampleRating) (notionName "clarity_score") =
          some (.number u)) ∧
        (∀ name, name ∈ (buildProperties exampleRating).map Prod.fst →
          name = "Evaluation Notes" ∨ name = "Status" ∨
            ∃ k2 v2, (k2, v2) ∈ exampleRating ∧ scoreEntry k2 v2 = true ∧
              name = notionName k2) ∧
        buildProperties exampleRating = exampleProps ∧
        (∀ env page_id, (update_notion_page env page_id exampleRating).1.head? =
          some (.updatePage page_id (buildProperties exampleRating)))) :=
  ⟨List.mem_cons_self _ _, rfl,
    c1_update_notion_page_mapping exampleRating "clarity_score" (JVal.jint 4)
      (List.mem_cons_self _ _) rfl⟩

/-- C10: because Python's `bool` is a subclass of `int`, the writer's
`isinstance(value, (int, float))` check accepts JSON booleans, so a
`_score` key with a boolean value is mapped to a numeric destination
column carrying that boolean (the uniqueness hypothesis rules out a
second score key title-casing to the same column name, as is the case
for every JSON object with the documented snake_case key shape). -/
theorem c10_bool_score_mapped
    (rating : List (String × JVal)) (k : String) (b : Bool)
    (hmem : (k, JVal.jbool b) ∈ rating)
    (hend : strEndsWith k "_score" = true)
    (huniq : ∀ k2 v2, (k2, v2) ∈ rating → scoreEntry k2 v2 = true →
      notionName k2 = notionName k → (k2, v2) = (k, JVal.jbool b)) :
    isPyNumeric (JVal.jbool b) = true ∧
      scoreEntry k (JVal.jbool b) = true ∧
      alookup (buildProperties rating) (notionName k) =
        some (PropVal.number (JVal.jbool b)) := by
  have hs : scoreEntry k (JVal.jbool b) = true := by
    simp [scoreEntry, hend, isPyNumeric]
  exact ⟨rfl, hs, addScores_lookup_unique rating _ k _ hmem hs huniq⟩

/-- C10 witness: the rating object `{valid_score: true}`. -/
theorem c10_witness :
    ("valid_score", JVal.jbool true) ∈ [("valid_score", JVal.jbool true)] ∧
      strEndsWith "valid_score" "_score" = true ∧
      (∀ k2 v2, (k2, v2) ∈ [("valid_score", JVal.jbool true)] →
        scoreEntry k2 v2 = true → notionName k2 = notionName "valid_score" →
        (k2, v2) = ("valid_score", JVal.jbool true)) ∧
      (isPyNumeric (JVal.jbool true) = true ∧
        scoreEntry "valid_score" (JVal.jbool true) = true ∧
        alookup (buildProperties [("valid_score", JVal.jbool true)])
          (notionName "valid_score") = some (PropVal.number (JVal.jbool true))) :=
  ⟨List.mem_singleton.2 rfl, rfl,
    fun _ _ hm _ _ => List.mem_singleton.1 hm,
    c10_bool_score_mapped [("valid_score", JVal.jbool true)] "valid_score" true
      (List.mem_singleton.2 rfl) rfl
      (fun _ _ hm _ _ => List.mem_singleton.1 hm)⟩

/-! ### The criteria loader: loop accumulator versus document order -/

theorem foldl_append_texts (runs : List TextRun) (acc : List String) :
    runs.foldl (fun a t => a ++ [t.plain_text]) acc = acc ++ runs.map TextRun.plain_text := by
  induction runs generalizing acc with
  | nil => simp
  | cons t ts ih => simp [ih]

theorem criteriaLoop_aux (blocks : List Block) (acc : List String) :
    blocks.foldl
      (fun acc b =>
        match b.body with
        | none => acc
        | some body =>
          match body.rich_text with
          | none => acc
          | some runs => runs.foldl (fun a t => a ++ [t.plain_text]) acc)
      acc = acc ++ blocks.flatMap blockTexts := by
  induction blocks generalizing acc with
  | nil => simp
  | cons b bs ih =>
    rw [List.foldl_cons]
    cases hb : b.body with
    | none => simp [hb, ih, blockTexts]
    | some body =>
      cases hr : body.rich_text with
      | none => simp [hb, hr, ih, blockTexts]
      | some runs =>
        simp only [hb, hr]
        rw [foldl_append_texts, ih]
        simp [blockTexts, hb, hr]

theorem criteriaLoop_eq_flatMap (blocks : List Block) :
    criteriaLoop blocks = blocks.flatMap blockTexts := by
  rw [criteriaLoop, criteriaLoop_aux]
  rfl

/-- The counterexample block for C3: a paragraph whose single text run
is one space character — textual content that is whitespace-only. -/
def wsBlock : Block :=
  ⟨"paragraph", some ⟨some [⟨" "⟩]⟩⟩

/-- C3 counterexample: a block list with a (whitespace-only) text run;
the loader returns `None`, not the newline-join of its runs. -/
theorem c3_counterexample :
    criteriaLoop [wsBlock] = [" "] ∧
      String.intercalate "\n" (criteriaLoop [wsBlock]) = " " ∧
      criteriaFromBlocks [wsBlock] = none ∧
      criteriaFromBlocks [wsBlock] ≠
        some (String.intercalate "\n" ([wsBlock].flatMap blockTexts)) :=
  ⟨rfl, rfl, rfl, fun h => Option.noConfusion h⟩

/-- C3 (amended): for every block list whose concatenated plain text is
not whitespace-only, `get_rating_criteria` returns exactly the
newline-join of every text run's plain-text content in document order
(runs in block order, within a block in run order), skipping blocks
lacking a rich-text collection under their own type key. -/
theorem c3_criteria_document_order (env : Env) (blocks : List Block)
    (hok : env.listBlocks = .ok blocks)
    (hws : pyStripEmpty (String.intercalate "\n" (blocks.flatMap blockTexts)) = false) :
    (get_rating_criteria env).2 =
      some (String.intercalate "\n" (blocks.flatMap blockTexts)) := by
  rw [get_rating_criteria, hok]
  show criteriaFromBlocks blocks = _
  rw [criteriaFromBlocks, criteriaLoop_eq_flatMap]
  rw [if_neg]
  rw [hws]
  exact Bool.false_ne_true

/-- The standards-page block used by witness environments. -/
def blockHello : Block :=
  ⟨"paragraph", some ⟨some [⟨"Be clear"⟩]⟩⟩

/-- A well-formed response page with `Prompt` and `AI Response`. -/
def pageOK : Page :=
  ⟨"p1", [("Prompt", [("title", [⟨"hello"⟩])]),
          ("AI Response", [("rich_text", [⟨"world"⟩])])]⟩

/-- Witness environment for C3: one textual block, no records. -/
def envC3 : Env :=
  { listBlocks := .ok [blockHello]
    queryDB := fun _ => .ok []
    chat := fun _ _ _ => .ok "json"
    parse := fun _ => .ok (.jobj [])
    updatePage := fun _ _ => .ok () }

/-- C3 witness: amended theorem applied to `envC3`. -/
theorem c3_witness :
    envC3.listBlocks = .ok [blockHello] ∧
      pyStripEmpty (String.intercalate "\n" ([blockHello].flatMap blockTexts)) = false ∧
      (get_rating_criteria envC3).2 =
        some (String.intercalate "\n" ([blockHello].flatMap blockTexts)) :=
  ⟨rfl, rfl, c3_criteria_document_order envC3 [blockHello] rfl rfl⟩

/-- C8: `get_rating_criteria` returns `None` in exactly two situations,
treated identically — the accumulated newline-joined text is empty or
whitespace-only, or the block-list fetch raises (the exception is
caught, so the function still returns rather than propagating). -/
theorem c8_criteria_none_iff (env : Env) :
    (get_rating_criteria env).2 = none ↔
      ((∃ e, env.listBlocks = .error e) ∨
        (∃ blocks, env.listBlocks = .ok blocks ∧
          pyStripEmpty (String.intercalate "\n" (criteriaLoop blocks)) = true)) := by
  cases h : env.listBlocks with
  | error e =>
    simp [get_rating_criteria, h]
  | ok blocks =>
    rw [get_rating_criteria]
    simp only [h]
    show criteriaFromBlocks blocks = none ↔ _
    rw [criteriaFromBlocks]
    by_cases hws : pyStripEmpty (String.intercalate "\n" (criteriaLoop blocks)) = true
    · simp [hws]
    · simp [hws]

/-- C8 witness: on an environment whose block fetch raises, the loader
returns `None`. -/
theorem c8_witness :
    (Env.mk (.error .apiError) (fun _ => .ok []) (fun _ _ _ => .ok "json")
        (fun _ => .ok (.jobj [])) (fun _ _ => .ok ())).listBlocks =
          Except.error PyErr.apiError ∧
      (get_rating_criteria
        (Env.mk (.error .apiError) (fun _ => .ok []) (fun _ _ _ => .ok "json")
          (fun _ => .ok (.jobj [])) (fun _ _ => .ok ()))).2 = none :=
  ⟨rfl,
    (c8_criteria_none_iff
          (Env.mk (.error .apiError) (fun _ => .ok []) (fun _ _ _ => .ok "json")
            (fun _ => .ok (.jobj [])) (fun _ _ => .ok ()))).2
      (Or.inl ⟨PyErr.apiError, rfl⟩)⟩

/-- C6: `get_unrated_responses` issues exactly one query, filtered on
the select field `Status` equalling `To be Rated`; a successful query's
result list is returned unmodified, and a raising query yields `[]`
with no exception escaping. -/
theorem c6_fetch_one_query (env : Env) :
    (get_unrated_responses env).1 = [.queryDB statusFilter] ∧
      statusFilter.property = "Status" ∧
      statusFilter.selectEquals = "To be Rated" ∧
      (∀ rs, env.queryDB statusFilter = .ok rs → (get_unrated_responses env).2 = rs) ∧
      (∀ e, env.queryDB statusFilter = .error e → (get_unrated_responses env).2 = []) := by
  refine ⟨?_, rfl, rfl, ?_, ?_⟩
  · cases h : env.queryDB statusFilter with
    | ok rs => simp [get_unrated_responses, h]
    | error e => simp [get_unrated_responses, h]
  · intro rs h
    simp [get_unrated_responses, h]
  · intro e h
    simp [get_unrated_responses, h]

/-- C6 witness: the theorem applied to an environment whose query
raises, with the error clause discharged concretely. -/
theorem c6_witness :
    ((get_unrated_responses
        (Env.mk (.ok []) (fun _ => .error .apiError) (fun _ _ _ => .ok "json")
          (fun _ => .ok (.jobj [])) (fun _ _ => .ok ()))).1 =
      [.queryDB statusFilter]) ∧
      (get_unrated_responses
        (Env.mk (.ok []) (fun _ => .error .apiError) (fun _ _ _ => .ok "json")
          (fun _ => .ok (.jobj [])) (fun _ _ => .ok ()))).2 = [] :=
  ⟨(c6_fetch_one_query _).1,
    (c6_fetch_one_query
          (Env.mk (.ok []) (fun _ => .error .apiError) (fun _ _ _ => .ok "json")
            (fun _ => .ok (.jobj [])) (fun _ _ => .ok ()))).2.2.2.2
      PyErr.apiError rfl⟩

theorem criteria_trace (env : Env) : (get_rating_criteria env).1 = [.listBlocks] := by
  cases h : env.listBlocks with
  | ok blocks => simp [get_rating_criteria, h]
  | error e => simp [get_rating_criteria, h]

theorem fetch_trace (env : Env) :
    (get_unrated_responses env).1 = [.queryDB statusFilter] := by
  cases h : env.queryDB statusFilter with
  | ok rs => simp [get_unrated_responses, h]
  | error e => simp [get_unrated_responses, h]

/-- C7: if the criteria loader returns `None`, or the record fetcher
returns an empty sequence, the run exits normally: no chat-completion
call and no record-store write occur, and no exception is raised. -/
theorem c7_early_exit (env : Env)
    (h : (get_rating_criteria env).2 = none ∨ (get_unrated_responses env).2 = []) :
    (pipelineMain env).2 = .ok () ∧
      (∀ c p r, ApiCall.chatCompletion c p r ∉ (pipelineMain env).1) ∧
      (∀ pid props, ApiCall.updatePage pid props ∉ (pipelineMain env).1) := by
  have hl := criteria_trace env
  have hq := fetch_trace env
  have key : (pipelineMain env).2 = .ok () ∧
      ((pipelineMain env).1 = [.listBlocks] ∨
        (pipelineMain env).1 = [.listBlocks, .queryDB statusFilter]) := by
    cases hc : (get_rating_criteria env).2 with
    | none =>
      rw [pipelineMain]
      simp [hc, hl]
    | some s =>
      by_cases hs : s = ""
      · subst hs
        rw [pipelineMain]
        simp [hc, hl]
      · have hfe : (get_unrated_responses env).2 = [] := by
          rcases h with h1 | h2
          · rw [hc] at h1
            cases h1
          · exact h2
        rw [pipelineMain]
        simp [hc, hl, hq, hfe, hs]
  obtain ⟨hok, htr⟩ := key
  refine ⟨hok, ?_, ?_⟩
  · intro c p r hmem
    rcases htr with h1 | h1 <;> rw [h1] at hmem <;> simp at hmem
  · intro pid props hmem
    rcases htr with h1 | h1 <;> rw [h1] at hmem <;> simp at hmem

/-- C7 witness: an environment with criteria but zero unrated records. -/
theorem c7_witness :
    ((get_rating_criteria envC3).2 = none ∨ (get_unrated_responses envC3).2 = []) ∧
      ((pipelineMain envC3).2 = .ok () ∧
        (∀ c p r, ApiCall.chatCompletion c p r ∉ (pipelineMain envC3).1) ∧
        (∀ pid props, ApiCall.updatePage pid props ∉ (pipelineMain envC3).1)) :=
  ⟨Or.inr rfl, c7_early_exit envC3 (Or.inr rfl)⟩

theorem extractText_err_kind (page : Page) (n s : String) (e : PyErr)
    (h : extractText page n s = .error e) : e = .keyError ∨ e = .indexError := by
  rw [extractText] at h
  cases h1 : alookup page.properties n with
  | none =>
    simp only [h1] at h
    injection h with h2
    exact Or.inl h2.symm
  | some field =>
    simp only [h1] at h
    cases h2 : alookup field s with
    | none =>
      simp only [h2] at h
      injection h with h3
      exact Or.inl h3.symm
    | some elems =>
      simp only [h2] at h
      cases elems with
      | nil =>
        injection h with h4
        exact Or.inr h4.symm
      | cons a as => exact Except.noConfusion h

/-- C4: when the chat-completion call itself raises, or it succeeds
but its content is not valid JSON, `get_rating_from_ai` catches the
failure and returns `None` (no exception escapes the engine), and the
driver then issues a single `Status = Error` update instead of calling
the writer. -/
theorem c4_rating_failure (env : Env) (criteria : String) (page : Page)
    (up ar : String)
    (hup : extractText page "Prompt" "title" = .ok up)
    (har : extractText page "AI Response" "rich_text" = .ok ar)
    (hfail : (∃ ce, env.chat criteria up ar = .error ce) ∨
      (∃ content pe, env.chat criteria up ar = .ok content ∧
        env.parse content = .error pe))
    (hupd : env.updatePage page.id errorProps = .ok ()) :
    get_rating_from_ai env criteria up ar = ([.chatCompletion criteria up ar], none) ∧
      processPage env criteria page =
        ([.chatCompletion criteria up ar, .updatePage page.id errorProps], .ok ()) := by
  have heng : get_rating_from_ai env criteria up ar =
      ([.chatCompletion criteria up ar], none) := by
    rcases hfail with ⟨ce, hce⟩ | ⟨content, pe, hchat, hparse⟩
    · simp only [get_rating_from_ai, hce]
    · simp only [get_rating_from_ai, hchat, hparse]
  refine ⟨heng, ?_⟩
  rw [processPage]
  have hbody : pageBody env criteria page =
      ([.chatCompletion criteria up ar, .updatePage page.id errorProps], .ok ()) := by
    simp only [pageBody, hup, har, heng, hupd]
    rfl
  rw [hbody]
  rfl

/-- Environment whose chat call succeeds but whose `json.loads` raises
on the content; all record-store updates succeed (used by the C5
witness). -/
def envC4 : Env :=
  { listBlocks := .ok [blockHello]
    queryDB := fun _ => .ok [pageOK]
    chat := fun _ _ _ => .ok "not json"
    parse := fun _ => .error .apiError
    updatePage := fun _ _ => .ok () }

/-- Environment whose chat-completion call itself raises; all
record-store updates succeed. -/
def envC4chat : Env :=
  { listBlocks := .ok [blockHello]
    queryDB := fun _ => .ok [pageOK]
    chat := fun _ _ _ => .error .apiError
    parse := fun _ => .ok (.jobj [])
    updatePage := fun _ _ => .ok () }

/-- C4 witness: the theorem applied to `envC4chat` and `pageOK`, with
the service-failure branch of the hypothesis discharged concretely. -/
theorem c4_witness :
    extractText pageOK "Prompt" "title" = .ok "hello" ∧
      extractText pageOK "AI Response" "rich_text" = .ok "world" ∧
      ((∃ ce, envC4chat.chat "c" "hello" "world" = .error ce) ∨
        (∃ content pe, envC4chat.chat "c" "hello" "world" = .ok content ∧
          envC4chat.parse content = .error pe)) ∧
      envC4chat.updatePage pageOK.id errorProps = .ok () ∧
      (get_rating_from_ai envC4chat "c" "hello" "world" =
          ([.chatCompletion "c" "hello" "world"], none) ∧
        processPage envC4chat "c" pageOK =
          ([.chatCompletion "c" "hello" "world", .updatePage pageOK.id errorProps], .ok ())) :=
  ⟨rfl, rfl, Or.inl ⟨PyErr.apiError, rfl⟩, rfl,
    c4_rating_failure envC4chat "c" pageOK "hello" "world"
      rfl rfl (Or.inl ⟨PyErr.apiError, rfl⟩) rfl⟩

/-- C5: when extraction of `Prompt` or `AI Response` fails (missing
key or empty array), the driver marks the record `Error` and never
invokes the rating engine: the iteration's whole trace is the single
`Status = Error` update, and no exception escapes the loop body. -/
theorem c5_missing_field (env : Env) (criteria : String) (page : Page) (e : PyErr)
    (hext : extractText page "Prompt" "title" = .error e ∨
      ∃ up, extractText page "Prompt" "title" = .ok up ∧
        extractText page "AI Response" "rich_text" = .error e)
    (hupd : env.updatePage page.id errorProps = .ok ()) :
    processPage env criteria page = ([.updatePage page.id errorProps], .ok ()) := by
  have hkind : e = .keyError ∨ e = .indexError := by
    rcases hext with h | ⟨up, _, h2⟩
    · exact extractText_err_kind _ _ _ _ h
    · exact extractText_err_kind _ _ _ _ h2
  have hbody : pageBody env criteria page = ([], .error e) := by
    rcases hext with h | ⟨up, h1, h2⟩
    · simp only [pageBody, h]
    · simp only [pageBody, h1, h2]
  rw [processPage, hbody]
  rcases hkind with rfl | rfl
  · simp only [catchKeyIndex, hupd]
    rfl
  · simp only [catchKeyIndex, hupd]
    rfl

/-- A response page whose `AI Response` property is missing. -/
def pageNoResp : Page :=
  ⟨"p2", [("Prompt", [("title", [⟨"hello"⟩])])]⟩

/-- C5 witness: a record missing `AI Response` under `envC4`. -/
theorem c5_witness :
    extractText pageNoResp "AI Response" "rich_text" = .error .keyError ∧
      extractText pageNoResp "Prompt" "title" = .ok "hello" ∧
      envC4.updatePage pageNoResp.id errorProps = .ok () ∧
      processPage envC4 "c" pageNoResp = ([.updatePage pageNoResp.id errorProps], .ok ()) :=
  ⟨rfl, rfl, rfl,
    c5_missing_field envC4 "c" pageNoResp .keyError
      (Or.inr ⟨"hello", rfl, rfl⟩) rfl⟩

/-- C9: a successful parse yielding any falsy value — in particular the
valid empty JSON object — is treated exactly like a rating failure: the
driver issues only the `Status = Error` update and never calls the
writer, although no service or parse error occurred. -/
theorem c9_falsy_rating (env : Env) (criteria : String) (page : Page)
    (up ar content : String) (r : JVal)
    (hup : extractText page "Prompt" "title" = .ok up)
    (har : extractText page "AI Response" "rich_text" = .ok ar)
    (hchat : env.chat criteria up ar = .ok content)
    (hparse : env.parse content = .ok r)
    (hfalsy : pyTruthy r = false)
    (hupd : env.updatePage page.id errorProps = .ok ()) :
    pyTruthy (.jobj []) = false ∧
      get_rating_from_ai env criteria up ar =
        ([.chatCompletion criteria up ar], some r) ∧
      processPage env criteria page =
        ([.chatCompletion criteria up ar, .updatePage page.id errorProps], .ok ()) := by
  have heng : get_rating_from_ai env criteria up ar =
      ([.chatCompletion criteria up ar], some r) := by
    simp only [get_rating_from_ai, hchat, hparse]
  refine ⟨rfl, heng, ?_⟩
  rw [processPage]
  have hbody : pageBody env criteria page =
      ([.chatCompletion criteria up ar, .updatePage page.id errorProps], .ok ()) := by
    simp only [pageBody, hup, har, heng, hfalsy, hupd]
    rfl
  rw [hbody]
  rfl

/-- Witness environment for C9: the model replies with valid JSON that
parses to the empty object. -/
def envC9 : Env :=
  { listBlocks := .ok [blockHello]
    queryDB := fun _ => .ok [pageOK]
    chat := fun _ _ _ => .ok "empty"
    parse := fun _ => .ok (.jobj [])
    updatePage := fun _ _ => .ok () }

/-- C9 witness: the theorem applied to `envC9` and `pageOK`, at the
falsy value `.jobj []` (the empty JSON object of the claim). -/
theorem c9_witness :
    extractText pageOK "Prompt" "title" = .ok "hello" ∧
      extractText pageOK "AI Response" "rich_text" = .ok "world" ∧
      envC9.chat "c" "hello" "world" = .ok "empty" ∧
      envC9.parse "empty" = .ok (.jobj []) ∧
      pyTruthy (JVal.jobj []) = false ∧
      envC9.updatePage pageOK.id errorProps = .ok () ∧
      (pyTruthy (.jobj []) = false ∧
        get_rating_from_ai envC9 "c" "hello" "world" =
          ([.chatCompletion "c" "hello" "world"], some (.jobj [])) ∧
        processPage envC9 "c" pageOK =
          ([.chatCompletion "c" "hello" "world", .updatePage pageOK.id errorProps], .ok ())) :=
  ⟨rfl, rfl, rfl, rfl, rfl, rfl,
    c9_falsy_rating envC9 "c" pageOK "hello" "world" "empty" (.jobj [])
      rfl rfl rfl rfl rfl rfl⟩

/-- Environment in which every record-store update raises, while the
rest of the pipeline succeeds with one textual block, one well-formed
record and a parsable model reply carrying one score. -/
def envCrash : Env :=
  { listBlocks := .ok [blockHello]
    queryDB := fun _ => .ok [pageOK]
    chat := fun _ _ _ => .ok "json"
    parse := fun _ => .ok (.jobj [("clarity_score", .jint 4)])
    updatePage := fun _ _ => .error .apiError }

/-- C2 counterexample: when the `Status = Error` fallback write itself
raises, the exception is neither logged-and-swallowed by the writer nor
contained by the driver loop — it escapes `update_notion_page` and
aborts the whole run. -/
theorem c2_counterexample :
    (update_notion_page envCrash "p1" [("clarity_score", JVal.jint 4)]).2 =
        Except.error PyErr.apiError ∧
      (pipelineMain envCrash).2 = Except.error PyErr.apiError :=
  ⟨rfl, rfl⟩

/-- C2 (amended): when a primary update fails and the fallback
`Status = Error` write also fails, the fallback's exception propagates
out of `update_notion_page`; and any exception escaping one record's
processing aborts the driver's per-record loop (later records are not
processed). -/
theorem c2_fallback_write_propagates (env : Env) (pid : String)
    (rating : List (String × JVal)) (e1 e2 : PyErr)
    (hprim : env.updatePage pid (buildProperties rating) = .error e1)
    (hfb : env.updatePage pid errorProps = .error e2) :
    (update_notion_page env pid rating).2 = .error e2 ∧
      (∀ criteria p ps acts, processPage env criteria p = (acts, Except.error e2) →
        (runPages env criteria (p :: ps)).2 = .error e2) := by
  constructor
  · simp only [update_notion_page, hprim, hfb]
  · intro criteria p ps acts h
    simp only [runPages, h]

/-- C2 witness: the amended theorem on `envCrash`, where both the
primary and the fallback update raise. -/
theorem c2_witness :
    envCrash.updatePage "p1" (buildProperties [("clarity_score", JVal.jint 4)]) =
        Except.error PyErr.apiError ∧
      envCrash.updatePage "p1" errorProps = Except.error PyErr.apiError ∧
      ((update_notion_page envCrash "p1" [("clarity_score", JVal.jint 4)]).2 =
          Except.error PyErr.apiError ∧
        (∀ criteria p ps acts,
          processPage envCrash criteria p = (acts, Except.error PyErr.apiError) →
          (runPages envCrash criteria (p :: ps)).2 = Except.error PyErr.apiError)) :=
  ⟨rfl, rfl,
    c2_fallback_write_propagates envCrash "p1" [("clarity_score", JVal.jint 4)]
      PyErr.apiError PyErr.apiError rfl rfl⟩
